import Mathlib

/-!
Verification of the image-region detection pipeline of the
`pdf-to-html-converter` repository (`src/image_region_detector.py`,
class `ImageRegionDetector`).

The OpenCV primitives (`cv2.findContours`, `cv2.contourArea`,
`cv2.boundingRect`, `cv2.arcLength`, `cv2.convexHull`, `cv2.Canny`,
`np.mean`, `np.std`) are external to the repository; a detected contour
is therefore embedded as a record of the measurements those primitives
return for it (`Contour` below).  Python floats are modelled as exact
rationals, so the thresholds `0.3`, `0.8`, `0.15` become `3/10`, `4/5`,
`3/20`.  All control flow, filtering, feature arithmetic, classification,
sorting and file naming are translated line by line from the source.
-/

namespace ImageRegionDetector

/-- Measurements cv2 reports for one contour found on a page:
`area` is `cv2.contourArea(contour)`, `perimeter` is
`cv2.arcLength(contour, True)`, `(x, y, w, h)` is
`cv2.boundingRect(contour)`, `edgeCount` is `np.sum(edges > 0)` for the
Canny edges of the cropped grayscale sub-image, `meanIntensity` and
`stdIntensity` are `np.mean(roi_gray)` and `np.std(roi_gray)`, and
`hullArea` is `cv2.contourArea(cv2.convexHull(contour))`. -/
structure Contour where
  area : ℚ
  perimeter : ℚ
  x : ℤ
  y : ℤ
  w : ℤ
  h : ℤ
  edgeCount : ℕ
  meanIntensity : ℚ
  stdIntensity : ℚ
  hullArea : ℚ
deriving DecidableEq

/-- A caller-supplied text box `(x, y, width, height)`, as produced by
`detect_text_regions_from_ocr`. -/
structure TextBox where
  x : ℤ
  y : ℤ
  w : ℤ
  h : ℤ
deriving DecidableEq

/-- The dictionary built by `_analyze_region_features` (lines 273-288),
with the `type` key that `find_image_regions` adds at line 191. -/
structure RegionInfo where
  id : ℕ
  x : ℤ
  y : ℤ
  width : ℤ
  height : ℤ
  area : ℤ
  perimeter : ℚ
  aspect_ratio : ℚ
  extent : ℚ
  edge_density : ℚ
  mean_intensity : ℚ
  std_intensity : ℚ
  solidity : ℚ
  type : String
deriving DecidableEq

/-- Python `int()` applied to a float: truncation toward zero. -/
def pyInt (q : ℚ) : ℤ := if 0 ≤ q then ⌊q⌋ else ⌈q⌉

/-- `detection_params['min_area']` (line 34). -/
def min_area : ℚ := 2500

/-- `detection_params['max_area_ratio']` (line 35), the float `0.8`. -/
def max_area_ratio : ℚ := 4/5

/-- `overlap_threshold` in `_is_overlapping_with_text` (line 218), the
float `0.3`. -/
def overlap_threshold : ℚ := 3/10

/-- `region_classification['aspect_ratio_threshold']` (line 44). -/
def aspect_ratio_threshold : ℚ := 3

/-- `region_classification['size_threshold']` (line 45), compared
against the integer `area` field. -/
def size_threshold : ℤ := 10000

/-- `region_classification['edge_density_threshold']` (line 46), the
float `0.15`. -/
def edge_density_threshold : ℚ := 3/20

/-- `_is_overlapping_with_text` (lines 205-234): scans the text boxes in
order and returns `True` on the first one whose rectangle intersection
with `(x, y, w, h)` has positive extent in both axes and covers strictly
more than `overlap_threshold` of the region rectangle's area. -/
def is_overlapping_with_text (x y w h : ℤ) (text_regions : List TextBox) : Bool :=
  let region_area : ℤ := w * h
  text_regions.any fun t =>
    let overlap_x1 := max x t.x
    let overlap_y1 := max y t.y
    let overlap_x2 := min (x + w) (t.x + t.w)
    let overlap_y2 := min (y + h) (t.y + t.h)
    if overlap_x2 > overlap_x1 ∧ overlap_y2 > overlap_y1 then
      decide ((((overlap_x2 - overlap_x1) * (overlap_y2 - overlap_y1) : ℤ) : ℚ)
        / (region_area : ℚ) > overlap_threshold)
    else
      false

/-- Rectangle-intersection area between the region rectangle
`(x, y, w, h)` and a text box, as computed at lines 222-228; `0` when
the intersection is empty in either axis. -/
def overlap_area (x y w h : ℤ) (t : TextBox) : ℤ :=
  let overlap_x1 := max x t.x
  let overlap_y1 := max y t.y
  let overlap_x2 := min (x + w) (t.x + t.w)
  let overlap_y2 := min (y + h) (t.y + t.h)
  if overlap_x2 > overlap_x1 ∧ overlap_y2 > overlap_y1 then
    (overlap_x2 - overlap_x1) * (overlap_y2 - overlap_y1)
  else
    0

/-- `_analyze_region_features` (lines 236-288): the guarded feature
arithmetic and the result dictionary.  The `type` key is not yet
present; it is recorded as `""` until `find_image_regions` sets it. -/
def analyze_region_features (c : Contour) (region_id : ℕ) : RegionInfo :=
  let area := c.area
  let aspect_ratio : ℚ := if c.h > 0 then (c.w : ℚ) / (c.h : ℚ) else 0
  let extent : ℚ := if c.w > 0 ∧ c.h > 0 then area / ((c.w : ℚ) * (c.h : ℚ)) else 0
  let edge_density : ℚ :=
    if c.w > 0 ∧ c.h > 0 then (c.edgeCount : ℚ) / ((c.w : ℚ) * (c.h : ℚ)) else 0
  let solidity : ℚ := if c.hullArea > 0 then area / c.hullArea else 0
  { id := region_id
    x := c.x
    y := c.y
    width := c.w
    height := c.h
    area := pyInt area
    perimeter := c.perimeter
    aspect_ratio := aspect_ratio
    extent := extent
    edge_density := edge_density
    mean_intensity := c.meanIntensity
    std_intensity := c.stdIntensity
    solidity := solidity
    type := "" }

/-- `_classify_region_type` (lines 290-316): reads only `edge_density`,
`aspect_ratio` and `area` from the feature dictionary. -/
def classify_region_type (region_info : RegionInfo) : String :=
  if region_info.edge_density > edge_density_threshold then
    if region_info.aspect_ratio > aspect_ratio_threshold then "diagram"
    else if region_info.area > size_threshold then "large_image"
    else "small_image"
  else
    if region_info.area > size_threshold then "block_image"
    else "graphic_element"

/-- Lines 187-191 of `find_image_regions`: analyze the features of a
surviving contour and set its `type`. -/
def detect_region (c : Contour) (i : ℕ) : RegionInfo :=
  let info := analyze_region_features c i
  { info with type := classify_region_type info }

/-- The `for i, contour in enumerate(contours)` loop of
`find_image_regions` (lines 167-193): `i` is the enumeration index over
all contours, counting also the filtered-out ones; a contour is skipped
when its area is below `min_area`, when its area exceeds
`max_area_ratio` times the page area, or when it overlaps a text box. -/
def find_image_regions_loop (total_area : ℚ) (texts : List TextBox) :
    ℕ → List Contour → List RegionInfo
  | _, [] => []
  | i, c :: cs =>
    let rest := find_image_regions_loop total_area texts (i + 1) cs
    if c.area < min_area then rest
    else if c.area > total_area * max_area_ratio then rest
    else if is_overlapping_with_text c.x c.y c.w c.h texts then rest
    else detect_region c i :: rest

/-- One step of the stable insertion sort modelling Python's
`list.sort(key=lambda x: x['area'], reverse=True)` (line 196): the new
element goes before the first already-placed element whose area is not
larger, so earlier input elements stay ahead of equal-area later ones. -/
def insert_area_desc (x : RegionInfo) : List RegionInfo → List RegionInfo
  | [] => [x]
  | y :: ys => if y.area ≤ x.area then x :: y :: ys else y :: insert_area_desc x ys

/-- Stable sort by `area` descending (line 196). -/
def sort_area_desc : List RegionInfo → List RegionInfo
  | [] => []
  | x :: xs => insert_area_desc x (sort_area_desc xs)

/-- The Python default-argument idiom `text_regions or []` (line 183):
`None` and the empty list both become `[]`; a non-empty list is kept. -/
def or_default (t : Option (List TextBox)) : List TextBox :=
  match t with
  | none => []
  | some l => if l.isEmpty then [] else l

/-- `find_image_regions` (lines 145-199).  The page raster has shape
`(page_height, page_width)` (line 159), so `total_area` is their
product; the result is the surviving regions sorted by area
descending. -/
def find_image_regions (page_height page_width : ℕ) (contours : List Contour)
    (text_regions : Option (List TextBox)) : List RegionInfo :=
  let total_area : ℚ := ((page_height * page_width : ℕ) : ℚ)
  sort_area_desc (find_image_regions_loop total_area (or_default text_regions) 0 contours)

/-- Python's `f"{n:03d}"`: decimal digits zero-padded on the left to
width 3 (wider numbers are printed unpadded). -/
def pad3 (n : ℕ) : String :=
  let s := toString n
  if s.length < 3 then String.mk (List.replicate (3 - s.length) '0') ++ s else s

/-- The file name `f"region_{region['id']:03d}_{region['type']}.png"`
built at line 350. -/
def region_filename (r : RegionInfo) : String :=
  "region_" ++ pad3 r.id ++ "_" ++ r.type ++ ".png"

/-- `extract_image_regions` (lines 318-359), restricted to its
observable return value: for each region, in order, the path of the
written crop `regions_dir / region_filename`. -/
def extract_image_regions (regions_dir : String) (regions : List RegionInfo) : List String :=
  regions.map fun r => regions_dir ++ "/" ++ region_filename r

/-- `classify_region_type` as the spec describes it: a pure function of
the triple `(edge_density, aspect_ratio, area)` with the branch order
edge-density test first, then aspect ratio, then size. -/
def classify_spec (edge_density aspect_ratio : ℚ) (area : ℤ) : String :=
  if edge_density > 3/20 then
    if aspect_ratio > 3 then "diagram"
    else if area > 10000 then "large_image"
    else "small_image"
  else
    if area > 10000 then "block_image"
    else "graphic_element"

/-- A small surviving contour used as concrete test data: area 3000,
bounding box 60 by 50 at the origin. -/
def cSmall : Contour :=
  { area := 3000, perimeter := 220, x := 0, y := 0, w := 60, h := 50,
    edgeCount := 300, meanIntensity := 100, stdIntensity := 10, hullArea := 3000 }

/-- A larger surviving contour used as concrete test data: area 5000,
bounding box 100 by 50. -/
def cBig : Contour :=
  { area := 5000, perimeter := 300, x := 0, y := 60, w := 100, h := 50,
    edgeCount := 500, meanIntensity := 120, stdIntensity := 15, hullArea := 5000 }

/-- A synthetic input for unit-testing the guard arithmetic of
`_analyze_region_features` directly: zero bounding-box extent and zero
hull area.  It is not a realizable cv2 measurement (a real contour's
bounding box has positive extent); it only exercises the guarded
branches of the pure feature arithmetic. -/
def cDegenerate : Contour :=
  { area := 3000, perimeter := 0, x := 10, y := 10, w := 0, h := 0,
    edgeCount := 0, meanIntensity := 0, stdIntensity := 0, hullArea := 0 }

/-- A text box far from `cSmall` and `cBig`, used as concrete test
data. -/
def tFar : TextBox := { x := 500, y := 500, w := 40, h := 20 }

/-- The spec's Scenario A feature values: `aspect_ratio = 4.0`,
`edge_density = 0.2`, `area = 20000`. -/
def scenarioA : RegionInfo :=
  { id := 0, x := 0, y := 0, width := 0, height := 0, area := 20000, perimeter := 0,
    aspect_ratio := 4, extent := 0, edge_density := 1/5, mean_intensity := 0,
    std_intensity := 0, solidity := 0, type := "" }

/-- The spec's Scenario C feature values: `edge_density = 0.05`,
`area = 15000` (aspect ratio immaterial, set to 1). -/
def scenarioC : RegionInfo :=
  { id := 0, x := 0, y := 0, width := 0, height := 0, area := 15000, perimeter := 0,
    aspect_ratio := 1, extent := 0, edge_density := 1/20, mean_intensity := 0,
    std_intensity := 0, solidity := 0, type := "" }

/-- The relation the output of the sort is ordered by: area
non-increasing from left to right. -/
def areaDescending (a b : RegionInfo) : Prop := b.area ≤ a.area

theorem perm_insert_area_desc (x : RegionInfo) (l : List RegionInfo) :
    List.Perm (insert_area_desc x l) (x :: l) := by
  induction l with
  | nil => simp [insert_area_desc]
  | cons y ys ih =>
    by_cases h : y.area ≤ x.area
    · simp [insert_area_desc, h]
    · simp only [insert_area_desc, if_neg h]
      exact (ih.cons y).trans (List.Perm.swap x y ys)

theorem perm_sort_area_desc (l : List RegionInfo) : List.Perm (sort_area_desc l) l := by
  induction l with
  | nil => simp [sort_area_desc]
  | cons x xs ih =>
    exact (perm_insert_area_desc x (sort_area_desc xs)).trans (ih.cons x)

theorem mem_insert_area_desc {a x : RegionInfo} {l : List RegionInfo} :
    a ∈ insert_area_desc x l ↔ a = x ∨ a ∈ l := by
  rw [(perm_insert_area_desc x l).mem_iff]
  simp

theorem pairwise_insert_area_desc {x : RegionInfo} {l : List RegionInfo}
    (h : l.Pairwise areaDescending) :
    (insert_area_desc x l).Pairwise areaDescending := by
  induction l with
  | nil => simp [insert_area_desc, List.Pairwise]
  | cons y ys ih =>
    rcases List.pairwise_cons.1 h with ⟨hy, hys⟩
    by_cases hle : y.area ≤ x.area
    · simp only [insert_area_desc, if_pos hle]
      refine List.pairwise_cons.2 ⟨?_, h⟩
      intro b hb
      rcases List.mem_cons.1 hb with rfl | hb
      · exact hle
      · exact le_trans (hy b hb) hle
    · simp only [insert_area_desc, if_neg hle]
      refine List.pairwise_cons.2 ⟨?_, ih hys⟩
      intro b hb
      rcases mem_insert_area_desc.1 hb with rfl | hb
      · exact le_of_not_le hle
      · exact hy b hb

theorem pairwise_sort_area_desc (l : List RegionInfo) :
    (sort_area_desc l).Pairwise areaDescending := by
  induction l with
  | nil => simp [sort_area_desc, List.Pairwise]
  | cons x xs ih => exact pairwise_insert_area_desc ih

theorem filter_insert_area_desc (A : ℤ) (x : RegionInfo) (l : List RegionInfo) :
    (insert_area_desc x l).filter (fun r => r.area == A) =
      if x.area = A then x :: l.filter (fun r => r.area == A)
      else l.filter (fun r => r.area == A) := by
  induction l with
  | nil =>
    simp only [insert_area_desc, List.filter_cons, List.filter_nil]
    by_cases h : x.area = A
    · simp [h]
    · simp [h]
  | cons y ys ih =>
    simp only [insert_area_desc]
    by_cases hle : y.area ≤ x.area
    · rw [if_pos hle]
      simp only [List.filter_cons]
      by_cases h : x.area = A <;> by_cases hy : y.area = A <;> simp [h, hy]
    · rw [if_neg hle]
      have hlt : x.area < y.area := lt_of_not_le hle
      simp only [List.filter_cons, ih]
      by_cases h : x.area = A
      · have hy : ¬ (y.area = A) := fun hya => absurd (h.trans hya.symm) (ne_of_lt hlt)
        simp [h, hy]
      · by_cases hy : y.area = A <;> simp [h, hy]

theorem filter_sort_area_desc (A : ℤ) (l : List RegionInfo) :
    (sort_area_desc l).filter (fun r => r.area == A) = l.filter (fun r => r.area == A) := by
  induction l with
  | nil => rfl
  | cons x xs ih =>
    by_cases h : x.area = A <;>
      simp [sort_area_desc, filter_insert_area_desc, List.filter_cons, h, ih]

theorem mem_find_image_regions_loop {total_area : ℚ} {texts : List TextBox}
    {r : RegionInfo} :
    ∀ {i : ℕ} {cs : List Contour}, r ∈ find_image_regions_loop total_area texts i cs →
      ∃ j, ∃ hj : j < cs.length,
        r = detect_region (cs.get ⟨j, hj⟩) (i + j) ∧
        ¬ ((cs.get ⟨j, hj⟩).area < min_area) ∧
        ¬ ((cs.get ⟨j, hj⟩).area > total_area * max_area_ratio) ∧
        is_overlapping_with_text (cs.get ⟨j, hj⟩).x (cs.get ⟨j, hj⟩).y
          (cs.get ⟨j, hj⟩).w (cs.get ⟨j, hj⟩).h texts = false := by
  intro i cs
  induction cs generalizing i with
  | nil => intro h; simp [find_image_regions_loop] at h
  | cons c cs ih =>
    intro hr
    have shift : ∀ hmem : r ∈ find_image_regions_loop total_area texts (i + 1) cs,
        ∃ j, ∃ hj : j < (c :: cs).length,
          r = detect_region ((c :: cs).get ⟨j, hj⟩) (i + j) ∧
          ¬ (((c :: cs).get ⟨j, hj⟩).area < min_area) ∧
          ¬ (((c :: cs).get ⟨j, hj⟩).area > total_area * max_area_ratio) ∧
          is_overlapping_with_text ((c :: cs).get ⟨j, hj⟩).x ((c :: cs).get ⟨j, hj⟩).y
            ((c :: cs).get ⟨j, hj⟩).w ((c :: cs).get ⟨j, hj⟩).h texts = false := by
      intro hmem
      rcases ih hmem with ⟨j, hj, heq, h1, h2, h3⟩
      refine ⟨j + 1, by simpa using Nat.succ_lt_succ hj, ?_, ?_, ?_, ?_⟩
      · simpa [Nat.add_assoc, Nat.add_comm 1 j] using heq
      · simpa using h1
      · simpa using h2
      · simpa using h3
    by_cases h1 : c.area < min_area
    · exact shift (by simpa [find_image_regions_loop, if_pos h1] using hr)
    · by_cases h2 : c.area > total_area * max_area_ratio
      · exact shift (by simpa [find_image_regions_loop, if_neg h1, if_pos h2] using hr)
      · by_cases h3 : is_overlapping_with_text c.x c.y c.w c.h texts = true
        · exact shift (by simpa [find_image_regions_loop, if_neg h1, if_neg h2, h3] using hr)
        · have h3f : is_overlapping_with_text c.x c.y c.w c.h texts = false :=
            Bool.eq_false_iff.2 (by simpa using h3)
          have hr' : r ∈ detect_region c i ::
              find_image_regions_loop total_area texts (i + 1) cs := by
            simpa [find_image_regions_loop, if_neg h1, if_neg h2, h3f] using hr
          rcases List.mem_cons.1 hr' with rfl | hmem
          · exact ⟨0, by simp, by simp, by simpa using h1, by simpa using h2, by simpa using h3f⟩
          · exact shift hmem

theorem mem_find_image_regions {page_height page_width : ℕ} {cs : List Contour}
    {t : Option (List TextBox)} {r : RegionInfo} :
    r ∈ find_image_regions page_height page_width cs t ↔
      r ∈ find_image_regions_loop ((page_height * page_width : ℕ) : ℚ) (or_default t) 0 cs := by
  unfold find_image_regions
  exact (perm_sort_area_desc _).mem_iff

theorem detect_region_id (c : Contour) (i : ℕ) : (detect_region c i).id = i := rfl

theorem detect_region_x (c : Contour) (i : ℕ) : (detect_region c i).x = c.x := rfl

theorem detect_region_y (c : Contour) (i : ℕ) : (detect_region c i).y = c.y := rfl

theorem detect_region_width (c : Contour) (i : ℕ) : (detect_region c i).width = c.w := rfl

theorem detect_region_height (c : Contour) (i : ℕ) : (detect_region c i).height = c.h := rfl

theorem detect_region_area (c : Contour) (i : ℕ) :
    (detect_region c i).area = pyInt c.area := rfl

theorem detect_region_solidity (c : Contour) (i : ℕ) :
    (detect_region c i).solidity = if 0 < c.hullArea then c.area / c.hullArea else 0 := rfl

/-- Characterization of `_is_overlapping_with_text`: it answers `True`
exactly when some text box covers strictly more than
`overlap_threshold` of the region rectangle's area. -/
theorem is_overlapping_iff (x y w h : ℤ) (texts : List TextBox) :
    is_overlapping_with_text x y w h texts = true ↔
      ∃ t ∈ texts,
        ((overlap_area x y w h t : ℤ) : ℚ) / (((w * h : ℤ)) : ℚ) > overlap_threshold := by
  simp only [is_overlapping_with_text, List.any_eq_true]
  refine exists_congr fun t => and_congr_right fun _ => ?_
  by_cases hg : min (x + w) (t.x + t.w) > max x t.x ∧ min (y + h) (t.y + t.h) > max y t.y
  · simp only [overlap_area, if_pos hg, decide_eq_true_eq]
  · simp only [overlap_area, if_neg hg, Int.cast_zero, zero_div]
    constructor
    · intro hfalse; cases hfalse
    · intro habs
      exact absurd habs (by norm_num [overlap_threshold])

/-- Concrete run: on a 100 by 100 page, the single contour `cSmall`
survives every filter and is the only emitted region. -/
theorem run_single_small :
    find_image_regions 100 100 [cSmall] none = [detect_region cSmall 0] := by
  norm_num [find_image_regions, find_image_regions_loop, or_default,
    is_overlapping_with_text, min_area, max_area_ratio, sort_area_desc,
    insert_area_desc, cSmall]

/-- Concrete run: the far-away text box `tFar` does not exclude
`cSmall`. -/
theorem run_single_small_text :
    find_image_regions 100 100 [cSmall] (some [tFar]) = [detect_region cSmall 0] := by
  norm_num [find_image_regions, find_image_regions_loop, or_default,
    is_overlapping_with_text, min_area, max_area_ratio, overlap_threshold,
    sort_area_desc, insert_area_desc, cSmall, tFar]

/-- Concrete run: `cSmall` (area 3000, discovery index 0) and `cBig`
(area 5000, discovery index 1) both survive; the sort puts `cBig`
first, so the emitted `id` sequence is `[1, 0]`. -/
theorem run_small_big :
    find_image_regions 100 100 [cSmall, cBig] none =
      [detect_region cBig 1, detect_region cSmall 0] := by
  norm_num [find_image_regions, find_image_regions_loop, or_default,
    is_overlapping_with_text, min_area, max_area_ratio, sort_area_desc,
    insert_area_desc, detect_region, analyze_region_features, pyInt,
    cSmall, cBig]

/-- **C1 counterexample.**  On a 100 by 100 page with the two contours
`cSmall` (discovery index 0, area 3000) and `cBig` (discovery index 1,
area 5000), the emitted `id` sequence is `[1, 0]`, not the 0-based rank
sequence `[0, 1]`: `id` is the contour-enumeration index set before the
sort and is never reassigned afterwards. -/
theorem c1_id_not_rank_counterexample :
    (find_image_regions 100 100 [cSmall, cBig] none).map RegionInfo.id ≠
      List.range (find_image_regions 100 100 [cSmall, cBig] none).length := by
  rw [run_small_big]
  intro h
  simp [detect_region_id, List.range_succ] at h

/-- **C1 (amended).**  For every page result, the emitted RegionRecord
sequence is ordered by area non-increasing, and each record's `id`
equals the 0-based index of its contour in the discovery enumeration
(counting also filtered-out contours) rather than its rank in the
sorted order: the record is exactly the analysis of the contour stored
at position `id` of the contour list. -/
theorem c1_sorted_and_id_is_discovery_index
    (page_height page_width : ℕ) (cs : List Contour) (t : Option (List TextBox)) :
    (find_image_regions page_height page_width cs t).Pairwise areaDescending ∧
    ∀ r ∈ find_image_regions page_height page_width cs t,
      ∃ hj : r.id < cs.length, r = detect_region (cs.get ⟨r.id, hj⟩) r.id := by
  constructor
  · exact pairwise_sort_area_desc _
  · intro r hr
    rcases mem_find_image_regions_loop (mem_find_image_regions.1 hr) with
      ⟨j, hj, heq, -, -, -⟩
    rw [Nat.zero_add] at heq
    have hid : r.id = j := by rw [heq, detect_region_id]
    rw [hid]
    exact ⟨hj, heq⟩

/-- **C1 witness.**  The amended C1 theorem applied to the concrete
single-contour run. -/
theorem c1_witness :
    ∃ hj : (detect_region cSmall 0).id < ([cSmall] : List Contour).length,
      detect_region cSmall 0 =
        detect_region (([cSmall] : List Contour).get ⟨(detect_region cSmall 0).id, hj⟩)
          (detect_region cSmall 0).id :=
  (c1_sorted_and_id_is_discovery_index 100 100 [cSmall] none).2
    (detect_region cSmall 0) (by rw [run_single_small]; simp)

/-- **C3.**  The classifier is a pure function of the triple
`(edge_density, aspect_ratio, area)` with exactly the spec's branch
order (`classify_spec`); and the spec's Scenario A
(`aspect_ratio = 4`, `edge_density = 0.2`, `area = 20000`) is typed
`diagram` while Scenario C (`edge_density = 0.05`, `area = 15000`) is
typed `block_image`. -/
theorem c3_classifier_branches :
    (∀ r : RegionInfo,
      classify_region_type r = classify_spec r.edge_density r.aspect_ratio r.area) ∧
    classify_region_type scenarioA = "diagram" ∧
    classify_region_type scenarioC = "block_image" := by
  refine ⟨fun r => rfl, ?_, ?_⟩ <;>
    norm_num [classify_region_type, scenarioA, scenarioC, edge_density_threshold,
      aspect_ratio_threshold, size_threshold]

/-- **C9.**  Calling `find_image_regions` with `text_regions = None`
(the default) behaves exactly like calling it with an empty text-box
list, and the overlap filter drops nothing when the text-box list is
empty. -/
theorem c9_none_equals_empty (page_height page_width : ℕ) (cs : List Contour) :
    find_image_regions page_height page_width cs none =
      find_image_regions page_height page_width cs (some []) ∧
    ∀ x y w h : ℤ, is_overlapping_with_text x y w h [] = false := by
  exact ⟨rfl, fun x y w h => rfl⟩

/-- **C2.**  A candidate rectangle is excluded exactly when some text
box covers strictly more than `overlap_threshold = 0.3` of its area
(the code's early exit realizes the existential); consequently every
emitted RegionRecord overlaps every caller-supplied text box by at most
`0.3` of its bounding-rectangle area. -/
theorem c2_overlap_exclusion :
    (∀ (x y w h : ℤ) (texts : List TextBox),
      is_overlapping_with_text x y w h texts = true ↔
        ∃ t ∈ texts,
          ((overlap_area x y w h t : ℤ) : ℚ) / (((w * h : ℤ)) : ℚ) > overlap_threshold) ∧
    (∀ (page_height page_width : ℕ) (cs : List Contour) (texts : List TextBox)
      (r : RegionInfo), r ∈ find_image_regions page_height page_width cs (some texts) →
      ∀ t ∈ texts,
        ((overlap_area r.x r.y r.width r.height t : ℤ) : ℚ)
          / (((r.width * r.height : ℤ)) : ℚ) ≤ overlap_threshold) := by
  constructor
  · exact is_overlapping_iff
  · intro page_height page_width cs texts r hr t ht
    rcases mem_find_image_regions_loop (mem_find_image_regions.1 hr) with
      ⟨j, hj, heq, -, -, h3⟩
    have hfields : r.x = (cs.get ⟨j, hj⟩).x ∧ r.y = (cs.get ⟨j, hj⟩).y ∧
        r.width = (cs.get ⟨j, hj⟩).w ∧ r.height = (cs.get ⟨j, hj⟩).h := by
      rw [heq]
      exact ⟨rfl, rfl, rfl, rfl⟩
    by_cases hemp : texts.isEmpty
    · rw [List.isEmpty_iff] at hemp
      subst hemp
      cases ht
    · have hod : or_default (some texts) = texts := by
        simp [or_default, hemp]
      rw [hod] at h3
      have hno : ¬ ∃ u ∈ texts,
          ((overlap_area (cs.get ⟨j, hj⟩).x (cs.get ⟨j, hj⟩).y (cs.get ⟨j, hj⟩).w
              (cs.get ⟨j, hj⟩).h u : ℤ) : ℚ)
            / ((((cs.get ⟨j, hj⟩).w * (cs.get ⟨j, hj⟩).h : ℤ)) : ℚ) > overlap_threshold := by
        rw [← is_overlapping_iff, h3]
        simp
      push_neg at hno
      rw [hfields.1, hfields.2.1, hfields.2.2.1, hfields.2.2.2]
      exact hno t ht

/-- **C2 witness.**  The C2 theorem applied to the concrete run with
one surviving contour and one far-away text box. -/
theorem c2_witness :
    ((overlap_area (detect_region cSmall 0).x (detect_region cSmall 0).y
        (detect_region cSmall 0).width (detect_region cSmall 0).height tFar : ℤ) : ℚ)
      / ((((detect_region cSmall 0).width * (detect_region cSmall 0).height : ℤ)) : ℚ)
      ≤ overlap_threshold :=
  c2_overlap_exclusion.2 100 100 [cSmall] [tFar] (detect_region cSmall 0)
    (by rw [run_single_small_text]; simp) tFar (by simp)

/-- **C5.**  Every emitted RegionRecord has (integer) area at least
`min_area = 2500` and at most `max_area_ratio = 0.8` times the page
area; and a contour whose area is strictly below `min_area` or strictly
above the cap is discarded before feature extraction, so no emitted
record carries its discovery index. -/
theorem c5_area_filters (page_height page_width : ℕ) (cs : List Contour)
    (t : Option (List TextBox)) :
    (∀ r ∈ find_image_regions page_height page_width cs t,
      min_area ≤ (r.area : ℚ) ∧
      (r.area : ℚ) ≤ ((page_height * page_width : ℕ) : ℚ) * max_area_ratio) ∧
    (∀ j, ∀ hj : j < cs.length,
      ((cs.get ⟨j, hj⟩).area < min_area ∨
        (cs.get ⟨j, hj⟩).area > ((page_height * page_width : ℕ) : ℚ) * max_area_ratio) →
      ∀ r ∈ find_image_regions page_height page_width cs t, r.id ≠ j) := by
  constructor
  · intro r hr
    rcases mem_find_image_regions_loop (mem_find_image_regions.1 hr) with
      ⟨j, hj, heq, h1, h2, -⟩
    have harea : r.area = pyInt (cs.get ⟨j, hj⟩).area := by
      rw [heq, detect_region_area]
    have hc1 : min_area ≤ (cs.get ⟨j, hj⟩).area := not_lt.1 h1
    have hc2 : (cs.get ⟨j, hj⟩).area ≤
        ((page_height * page_width : ℕ) : ℚ) * max_area_ratio := not_lt.1 h2
    have h0 : (0 : ℚ) ≤ (cs.get ⟨j, hj⟩).area :=
      le_trans (by norm_num [min_area]) hc1
    have hpy : pyInt (cs.get ⟨j, hj⟩).area = ⌊(cs.get ⟨j, hj⟩).area⌋ := if_pos h0
    constructor
    · rw [harea, hpy]
      have hfloor : (2500 : ℤ) ≤ ⌊(cs.get ⟨j, hj⟩).area⌋ := by
        refine Int.le_floor.2 ?_
        rw [show ((2500 : ℤ) : ℚ) = min_area by norm_num [min_area]]
        exact hc1
      calc min_area = ((2500 : ℤ) : ℚ) := by norm_num [min_area]
        _ ≤ (⌊(cs.get ⟨j, hj⟩).area⌋ : ℚ) := by exact_mod_cast hfloor
    · rw [harea, hpy]
      exact le_trans (Int.floor_le _) hc2
  · intro j hj hbad r hr hid
    rcases mem_find_image_regions_loop (mem_find_image_regions.1 hr) with
      ⟨j2, hj2, heq, h1, h2, -⟩
    rw [Nat.zero_add] at heq
    have hid2 : r.id = j2 := by rw [heq, detect_region_id]
    have hjj : j2 = j := by rw [← hid2, hid]
    subst hjj
    rcases hbad with hb | hb
    · exact h1 hb
    · exact h2 hb

/-- **C5 witness.**  The C5 area invariant at the concrete
single-contour run. -/
theorem c5_witness :
    min_area ≤ ((detect_region cSmall 0).area : ℚ) ∧
    ((detect_region cSmall 0).area : ℚ) ≤ ((100 * 100 : ℕ) : ℚ) * max_area_ratio :=
  (c5_area_filters 100 100 [cSmall] none).1 (detect_region cSmall 0)
    (by rw [run_single_small]; simp)

/-- **C6.**  The output is a stable sort of the surviving candidates
(the loop output, which is in contour-discovery order) by area
descending: it is a permutation of them, pairwise non-increasing in
area, and for every area value the equal-area candidates appear in
exactly their original relative order. -/
theorem c6_stable_area_sort (page_height page_width : ℕ) (cs : List Contour)
    (t : Option (List TextBox)) :
    List.Perm (find_image_regions page_height page_width cs t)
      (find_image_regions_loop ((page_height * page_width : ℕ) : ℚ) (or_default t) 0 cs) ∧
    (find_image_regions page_height page_width cs t).Pairwise areaDescending ∧
    ∀ A : ℤ,
      (find_image_regions page_height page_width cs t).filter (fun r => r.area == A) =
        (find_image_regions_loop ((page_height * page_width : ℕ) : ℚ) (or_default t)
          0 cs).filter (fun r => r.area == A) := by
  refine ⟨?_, pairwise_sort_area_desc _, fun A => ?_⟩
  · exact perm_sort_area_desc _
  · exact filter_sort_area_desc A _

/-- **C7.**  Every emitted RegionRecord's solidity is the contour area
divided by the convex-hull area of the same contour and lies in
`(0, 1]`, given the geometric fact (guaranteed by `cv2.convexHull`)
that each contour's hull area is at least its area. -/
theorem c7_solidity (page_height page_width : ℕ) (cs : List Contour)
    (t : Option (List TextBox)) (hhull : ∀ c ∈ cs, c.area ≤ c.hullArea)
    (r : RegionInfo) (hr : r ∈ find_image_regions page_height page_width cs t) :
    ∃ hj : r.id < cs.length,
      r.solidity = (cs.get ⟨r.id, hj⟩).area / (cs.get ⟨r.id, hj⟩).hullArea ∧
      0 < r.solidity ∧ r.solidity ≤ 1 := by
  rcases mem_find_image_regions_loop (mem_find_image_regions.1 hr) with
    ⟨j, hj, heq, h1, -, -⟩
  rw [Nat.zero_add] at heq
  have hid : r.id = j := by rw [heq, detect_region_id]
  have hcmem : cs.get ⟨j, hj⟩ ∈ cs := List.get_mem cs j hj
  have harea : (0 : ℚ) < (cs.get ⟨j, hj⟩).area :=
    lt_of_lt_of_le (by norm_num [min_area]) (not_lt.1 h1)
  have hhullpos : 0 < (cs.get ⟨j, hj⟩).hullArea :=
    lt_of_lt_of_le harea (hhull _ hcmem)
  have hsol : r.solidity = (cs.get ⟨j, hj⟩).area / (cs.get ⟨j, hj⟩).hullArea := by
    rw [heq, detect_region_solidity, if_pos hhullpos]
  rw [hid]
  exact ⟨hj, hsol, by rw [hsol]; exact div_pos harea hhullpos,
    by rw [hsol]; exact (div_le_one hhullpos).2 (hhull _ hcmem)⟩

/-- **C7 witness.**  The C7 theorem applied to the concrete
single-contour run, whose hull area equals its contour area. -/
theorem c7_witness :
    ∃ hj : (detect_region cSmall 0).id < ([cSmall] : List Contour).length,
      (detect_region cSmall 0).solidity =
        (([cSmall] : List Contour).get ⟨(detect_region cSmall 0).id, hj⟩).area /
          (([cSmall] : List Contour).get ⟨(detect_region cSmall 0).id, hj⟩).hullArea ∧
      0 < (detect_region cSmall 0).solidity ∧ (detect_region cSmall 0).solidity ≤ 1 :=
  c7_solidity 100 100 [cSmall] none (by norm_num [cSmall]) (detect_region cSmall 0)
    (by rw [run_single_small]; simp)

/-- **C8.**  The materializer returns one path per RegionRecord, in
order: the list of paths has the same length as the record list, the
file name of a record is `region_<3-digit zero-padded id>_<type>.png`,
and the path at every index belongs to the record at that index. -/
theorem c8_materializer_paths (regions_dir : String) (regions : List RegionInfo) :
    (extract_image_regions regions_dir regions).length = regions.length ∧
    (∀ r : RegionInfo,
      region_filename r = "region_" ++ pad3 r.id ++ "_" ++ r.type ++ ".png") ∧
    ∀ i : ℕ, (extract_image_regions regions_dir regions)[i]? =
      regions[i]?.map fun r => regions_dir ++ "/" ++ region_filename r := by
  refine ⟨by simp [extract_image_regions], fun r => rfl, fun i => ?_⟩
  simp [extract_image_regions]

/-- **C10.**  Every division in per-candidate feature extraction is
guarded: `aspect_ratio`, `extent` and `edge_density` evaluate to 0 when
the bounding-box width or height is 0, and `solidity` evaluates to 0
when the convex-hull area is 0. -/
theorem c10_guarded_divisions (c : Contour) (i : ℕ) :
    ((c.w = 0 ∨ c.h = 0) →
      (analyze_region_features c i).aspect_ratio = 0 ∧
      (analyze_region_features c i).extent = 0 ∧
      (analyze_region_features c i).edge_density = 0) ∧
    (c.hullArea = 0 → (analyze_region_features c i).solidity = 0) := by
  constructor
  · intro hwh
    refine ⟨?_, ?_, ?_⟩
    · rcases hwh with hw | hh
      · simp [analyze_region_features, hw]
      · simp [analyze_region_features, hh]
    · rcases hwh with hw | hh
      · simp [analyze_region_features, hw]
      · simp [analyze_region_features, hh]
    · rcases hwh with hw | hh
      · simp [analyze_region_features, hw]
      · simp [analyze_region_features, hh]
  · intro hh
    simp [analyze_region_features, hh]

/-- **C10 witness.**  The guarded features of the degenerate contour
all evaluate to 0. -/
theorem c10_witness :
    (cDegenerate.w = 0 ∨ cDegenerate.h = 0) ∧
    (analyze_region_features cDegenerate 0).aspect_ratio = 0 ∧
    (analyze_region_features cDegenerate 0).extent = 0 ∧
    (analyze_region_features cDegenerate 0).edge_density = 0 ∧
    (analyze_region_features cDegenerate 0).solidity = 0 := by
  have h := c10_guarded_divisions cDegenerate 0
  have hw : cDegenerate.w = 0 ∨ cDegenerate.h = 0 := Or.inl rfl
  exact ⟨hw, (h.1 hw).1, (h.1 hw).2.1, (h.1 hw).2.2, h.2 rfl⟩

end ImageRegionDetector
